import Mathlib

/-!
# Verification of the redirect resolution engine (`seo_optimizer/redirects.py`)

Shallow embedding of `RedirectPattern` (the rule model, with its `clean`
validation hook) and `RedirectManager` (`find_redirect`, `create_redirect`).

The Python code compiles rule patterns with the `re` module at resolution
time.  We embed the fragment of Python regular-expression syntax that the
module itself produces and that the rules under verification use:

* literal characters, escaped literals (`\/`, `\*`, ...), `\d`,
* `.` (any character except newline),
* `*`, `+`, `?` on single-character atoms, `?` on groups,
* capture groups `( ... )`,
* a leading `^` and a trailing `$`.

Patterns outside this fragment are rejected by `compile` (as Python rejects
genuinely malformed patterns such as `"("` with `re.error`).  Matching is
`re.match` semantics: anchored at the start of the string only, greedy
quantifiers with backtracking, leftmost preference.
-/

namespace SeoRedirects

/-- One row of the `RedirectPattern` table (`redirects.py`, lines 13-62).
`created_at` stands for the `auto_now_add` timestamp; larger = more recent. -/
structure Rule where
  url_pattern : String
  redirect_url : String
  is_regex : Bool
  status_code : Nat
  is_active : Bool
  priority : Int
  created_at : Int
  deriving DecidableEq, Repr

/-- The dictionary returned by `RedirectManager.find_redirect` on a match. -/
structure RedirectInfo where
  url : String
  status_code : Nat
  deriving DecidableEq, Repr

/-! ## Python `str.replace` on character lists -/

/-- Fuel-driven worker for `listReplace`; `fuel ≥ s.length` never runs out
because each step consumes at least one character of `s`. -/
def replaceAux (old new : List Char) : Nat → List Char → List Char
  | 0, s => s
  | _, [] => []
  | fuel + 1, c :: rest =>
    if old ≠ [] ∧ old.isPrefixOf (c :: rest) then
      new ++ replaceAux old new fuel ((c :: rest).drop old.length)
    else
      c :: replaceAux old new fuel rest

/-- Python `s.replace(old, new)`: replace every non-overlapping occurrence of
`old` in `s`, scanning left to right. -/
def listReplace (old new s : List Char) : List Char :=
  replaceAux old new s.length s

/-- `needle` occurs as a contiguous substring of `hay` (Python `in`). -/
def listContains (needle : List Char) : List Char → Bool
  | [] => needle.isPrefixOf []
  | c :: rest => needle.isPrefixOf (c :: rest) || listContains needle rest

/-! ## Python 3.7+ `re.escape` -/

/-- The characters `re.escape` prepends a backslash to (Python ≥ 3.7). -/
def pySpecialChars : List Char :=
  ['(', ')', '[', ']', '{', '}', '?', '*', '+', '-', '|', '^', '$', '\\',
   '.', '&', '~', '#', ' ', '\t', '\n', '\r', '\x0b', '\x0c']

/-- `re.escape`: backslash-escape every special character. -/
def pyEscape (s : String) : String :=
  ⟨s.toList.flatMap (fun c => if c ∈ pySpecialChars then ['\\', c] else [c])⟩

/-! ## Regular-expression abstract syntax and `re.match` semantics -/

/-- Single-character atoms. -/
inductive Atom
  | lit (c : Char)
  | anyChar
  | digit
  deriving DecidableEq, Repr

/-- The embedded regex fragment.  Group indices are assigned by `compile`
in order of opening parentheses, starting at 1, as Python does. -/
inductive RE
  | eps
  | atom (a : Atom)
  | star (a : Atom)
  | plus (a : Atom)
  | opt (r : RE)
  | group (i : Nat) (r : RE)
  | seq (r₁ r₂ : RE)
  | endAnchor
  deriving Repr

/-- Does atom `a` match character `c`?  `.` excludes newline (no `DOTALL`);
`\d` is a decimal digit. -/
def matchAtom (a : Atom) (c : Char) : Bool :=
  match a with
  | .lit c' => c = c'
  | .anyChar => c ≠ '\n'
  | .digit => c.isDigit

/-- Capture store: group index ↦ most recently captured text. -/
def Caps := List (Nat × String)

/-- Record a capture for group `i`. -/
def Caps.set (caps : Caps) (i : Nat) (v : String) : Caps := (i, v) :: caps

/-- Text captured by group `i`, `none` if the group did not participate. -/
def Caps.get (caps : Caps) (i : Nat) : Option String :=
  List.lookup i caps

/-- Greedy `a*` against `s`, then continuation `k`: consume as many
`a`-matching characters as possible, backtracking one at a time. -/
def starLoop (a : Atom) (k : List Char → Caps → Option (List Char × Caps)) :
    List Char → Caps → Option (List Char × Caps)
  | [], caps => k [] caps
  | c :: rest, caps =>
    if matchAtom a c then
      match starLoop a k rest caps with
      | some res => some res
      | none => k (c :: rest) caps
    else
      k (c :: rest) caps

/-- Backtracking matcher in continuation-passing style.  `mMatch r s caps k`
matches `r` against a prefix of `s` (Python `re.match` is start-anchored),
passing the rest of the input and the updated captures to `k`; quantifiers
are greedy and alternatives are tried in Python's backtracking order. -/
def mMatch : RE → List Char → Caps →
    (List Char → Caps → Option (List Char × Caps)) → Option (List Char × Caps)
  | .eps, s, caps, k => k s caps
  | .atom _, [], _, _ => none
  | .atom a, c :: rest, caps, k => if matchAtom a c then k rest caps else none
  | .star a, s, caps, k => starLoop a k s caps
  | .plus _, [], _, _ => none
  | .plus a, c :: rest, caps, k =>
    if matchAtom a c then starLoop a k rest caps else none
  | .opt r, s, caps, k =>
    match mMatch r s caps k with
    | some res => some res
    | none => k s caps
  | .group i r, s, caps, k =>
    mMatch r s caps (fun s' caps' =>
      k s' (caps'.set i ⟨s.take (s.length - s'.length)⟩))
  | .seq r₁ r₂, s, caps, k =>
    mMatch r₁ s caps (fun s' caps' => mMatch r₂ s' caps' k)
  | .endAnchor, s, caps, k => if s.isEmpty then k s caps else none

/-- `re.match(re, s)`: match anchored at the start, any remainder accepted.
On success return `groups()`: for each group `1..n` the captured text, or
`none` when the group did not participate in the match. -/
def reMatch (r : RE) (numGroups : Nat) (s : String) :
    Option (List (Option String)) :=
  match mMatch r s.toList [] (fun rest caps => some (rest, caps)) with
  | some (_, caps) => some ((List.range numGroups).map (fun i => caps.get (i + 1)))
  | none => none

/-! ## Pattern compilation (parser for the embedded fragment) -/

/-- Attach the greedy quantifier following an atom, if any. -/
def quantOf (a : Atom) : List Char → RE × List Char
  | '*' :: rest => (.star a, rest)
  | '+' :: rest => (.plus a, rest)
  | '?' :: rest => (.opt (.atom a), rest)
  | rest => (.atom a, rest)

/-- Recursive-descent parser for a sequence of items, stopping at `)` or the
end of input.  `g` counts the groups opened so far; returns the parsed
expression, the unconsumed input, and the updated group count.  Every
recursive call consumes at least one character, so `fuel = length + 1`
never runs out; `none` means the pattern is rejected (`re.error`). -/
def parseSeq : Nat → List Char → Nat → Option (RE × List Char × Nat)
  | _, [], g => some (.eps, [], g)
  | _, ')' :: rest, g => some (.eps, ')' :: rest, g)
  | 0, _, _ => none
  | fuel + 1, c :: rest, g =>
    let item : Option (RE × List Char × Nat) :=
      match c, rest with
      | '(', rest =>
        match parseSeq fuel rest (g + 1) with
        | some (inner, ')' :: rest₂, g₂) =>
          match rest₂ with
          | '?' :: rest₃ => some (.opt (.group (g + 1) inner), rest₃, g₂)
          | '*' :: _ => none
          | '+' :: _ => none
          | _ => some (.group (g + 1) inner, rest₂, g₂)
        | _ => none
      | '\\', e :: rest₂ =>
        if e = 'd' then
          let (re, rest₃) := quantOf .digit rest₂
          some (re, rest₃, g)
        else if e.isAlphanum then none
        else
          let (re, rest₃) := quantOf (.lit e) rest₂
          some (re, rest₃, g)
      | '\\', [] => none
      | '.', rest =>
        let (re, rest₂) := quantOf .anyChar rest
        some (re, rest₂, g)
      | '$', rest => if rest = [] then some (.endAnchor, [], g) else none
      | '^', _ => none
      | '*', _ => none
      | '+', _ => none
      | '?', _ => none
      | '[', _ => none
      | ']', _ => none
      | '{', _ => none
      | '}', _ => none
      | '|', _ => none
      | c, rest =>
        let (re, rest₂) := quantOf (.lit c) rest
        some (re, rest₂, g)
    match item with
    | some (re₁, rest₁, g₁) =>
      match parseSeq fuel rest₁ g₁ with
      | some (re₂, rest₂, g₂) => some (.seq re₁ re₂, rest₂, g₂)
      | none => none
    | none => none

/-- `re.compile(p)` for the embedded fragment: the parsed expression and its
number of capture groups, or `none` when the pattern is invalid.  A leading
`^` is dropped (`re.match` is start-anchored already). -/
def compile (p : String) : Option (RE × Nat) :=
  let cs := p.toList
  let cs := match cs with
    | '^' :: rest => rest
    | cs => cs
  match parseSeq (cs.length + 1) cs 0 with
  | some (r, [], g) => some (r, g)
  | _ => none

/-! ## `RedirectManager.find_redirect` -/

/-- The capture-group substitution loop (`redirects.py`, lines 108-111):
`for i, group in enumerate(match.groups(), start=1):
   redirect_url = redirect_url.replace(f'${i}', group or '')`. -/
def substLoop : Nat → List (Option String) → List Char → List Char
  | _, [], t => t
  | i, g :: gs, t =>
    substLoop (i + 1) gs
      (listReplace ('$' :: (toString i).toList) (g.getD "").toList t)

/-- Replace `$1`, `$2`, ... in `target` by the captured groups, sequentially
and in increasing index order, exactly as the Python loop does. -/
def applyGroups (target : String) (gs : List (Option String)) : String :=
  ⟨substLoop 1 gs target.toList⟩

/-- The regex string the wildcard branch builds (`redirects.py`, lines
118-119): `pattern = re.escape(p).replace('\\*', '.*')`, matched as
`f'^{pattern}$'`. -/
def wildcardPattern (p : String) : String :=
  "^" ++ ⟨listReplace ['\\', '*'] ['.', '*'] (pyEscape p).toList⟩ ++ "$"

/-- The `re.error` Python raises when a rule's pattern fails to compile
inside `find_redirect`; no handler catches it there. -/
def reError : String := "re.error"

/-- Rules ordered before others by `order_by('-priority', '-created_at')`:
strictly higher priority, or equal priority and strictly more recent. -/
def beats (a b : Rule) : Bool :=
  a.priority > b.priority ||
    (a.priority = b.priority && a.created_at > b.created_at)

/-- Insert a rule into a list sorted by `beats`. -/
def insertRule (r : Rule) : List Rule → List Rule
  | [] => [r]
  | x :: xs => if beats r x then r :: x :: xs else x :: insertRule r xs

/-- Sort rules by priority descending, then creation time descending
(the model's `order_by('-priority', '-created_at')`). -/
def sortRules : List Rule → List Rule
  | [] => []
  | r :: rest => insertRule r (sortRules rest)

/-- `RedirectPattern.objects.filter(is_active=True).order_by('-priority',
'-created_at')`: the sequence of rules the resolver iterates over. -/
def orderedActive (rules : List Rule) : List Rule :=
  sortRules (rules.filter (fun r => r.is_active))

/-- The body of `find_redirect`'s `for` loop over the ordered active rules
(`redirects.py`, lines 104-125).  A regex rule is matched with
`re.match(pattern, url)`; the wildcard/literal branch escapes the pattern,
turns `\*` into `.*` and matches `^pattern$`.  A pattern that fails to
compile raises `re.error` out of the loop (`Except.error`). -/
def findFrom : List Rule → String → Except String (Option RedirectInfo)
  | [], _ => .ok none
  | r :: rest, url =>
    if r.is_regex then
      match compile r.url_pattern with
      | none => .error reError
      | some (re, n) =>
        match reMatch re n url with
        | some gs =>
          .ok (some { url := applyGroups r.redirect_url gs,
                      status_code := r.status_code })
        | none => findFrom rest url
    else
      match compile (wildcardPattern r.url_pattern) with
      | none => .error reError
      | some (re, n) =>
        match reMatch re n url with
        | some _ =>
          .ok (some { url := r.redirect_url, status_code := r.status_code })
        | none => findFrom rest url

/-- `RedirectManager.find_redirect(url)` over a store of rules: scan the
active rules in priority order and return the first match's substituted
URL and status code, `none` when no rule matches, or the uncaught
`re.error` when a scanned rule's pattern fails to compile. -/
def find_redirect (rules : List Rule) (url : String) :
    Except String (Option RedirectInfo) :=
  findFrom (orderedActive rules) url

/-! ## Rule validation: `RedirectPattern.clean` and `create_redirect` -/

/-- `any(f'${i}' in self.redirect_url for i in range(10))`
(`redirects.py`, line 75): the target mentions one of `$0` … `$9`. -/
def hasDollarRef (s : String) : Bool :=
  (List.range 10).any (fun i => listContains ('$' :: (toString i).toList) s.toList)

/-- Split a character list at every `'.'`. -/
def splitOnDot : List Char → List (List Char)
  | [] => [[]]
  | '.' :: rest => [] :: splitOnDot rest
  | c :: rest =>
    match splitOnDot rest with
    | [] => [[c]]
    | l :: ls => (c :: l) :: ls

/-- Model of Django's `URLValidator` (an external framework dependency,
called by `RedirectPattern.clean`): accept `scheme://host[rest]` for the
default schemes, a host made of alphanumeric/hyphen labels separated by
dots, with at least two labels unless the host is `localhost`.  This keeps
the structure the claims rely on: strings with no scheme (plain text,
relative paths, bare `$0`) are rejected, ordinary absolute URLs accepted. -/
def urlValidator (s : String) : Bool :=
  ["http", "https", "ftp", "ftps"].any (fun sc =>
    let scheme := (sc ++ "://").toList
    scheme.isPrefixOf s.toList &&
      (let after := s.toList.drop scheme.length
       let host := after.takeWhile
         (fun c => !(c = '/' || c = ':' || c = '?' || c = '#'))
       let labels := splitOnDot host
       !host.isEmpty &&
         labels.all (fun l =>
           !l.isEmpty && l.all (fun c => c.isAlphanum || c = '-')) &&
         (labels.length ≥ 2 || host == "localhost".toList)))

/-- `RedirectPattern.clean` (`redirects.py`, lines 64-82): an `is_regex`
rule whose pattern does not compile raises `ValidationError`; otherwise,
when the target mentions none of `$0` … `$9`, it must pass `URLValidator`.
`some msg` models a raised `ValidationError`. -/
def clean (r : Rule) : Option String :=
  if r.is_regex ∧ (compile r.url_pattern).isNone then
    some "Invalid regular expression"
  else if ¬ hasDollarRef r.redirect_url ∧ ¬ urlValidator r.redirect_url then
    some "Enter a valid URL"
  else
    none

/-- The field-level checks `Model.full_clean` runs before `clean`:
`CharField(max_length=255, blank=False)` for both pattern and target, and
the four-value `choices` list on `status_code`. -/
def clean_fields (r : Rule) : Option String :=
  if r.url_pattern = "" ∨ r.url_pattern.length > 255 ∨
      r.redirect_url = "" ∨ r.redirect_url.length > 255 ∨
      r.status_code ∉ [301, 302, 307, 308] then
    some "field validation failed"
  else
    none

/-- `full_clean`: field validation, then the model's `clean` hook; any
error aborts before `save()`. -/
def full_clean (r : Rule) : Option String :=
  match clean_fields r with
  | some e => some e
  | none => clean r

/-- The row `create_redirect` builds (`redirects.py`, lines 141-148):
`is_active` keeps its model default `True`; `created_at` is the
`auto_now_add` timestamp `now`. -/
def mkRule (p t : String) (sc : Nat) (rx : Bool) (pr : Int) (now : Int) : Rule :=
  { url_pattern := p, redirect_url := t, is_regex := rx, status_code := sc,
    is_active := true, priority := pr, created_at := now }

/-- `RedirectManager.create_redirect` (`redirects.py`, lines 137-151):
build the row, `full_clean()` it, and only then `save()` it.  The result
is the new store contents paired with the created rule or the raised
`ValidationError`. -/
def create_redirect (store : List Rule) (p t : String) (sc : Nat)
    (rx : Bool) (pr : Int) (now : Int) : List Rule × Except String Rule :=
  let r := mkRule p t sc rx pr now
  match full_clean r with
  | some e => (store, .error e)
  | none => (store ++ [r], .ok r)

/-! ## Spec-side definitions

These two definitions follow the specification's words, for comparison
with the code-derived definitions above. -/

/-- The result a single rule yields for `url`, if it matches (`none` also
when its pattern does not compile, a case the refinement theorem excludes
by hypothesis). -/
def ruleMatchResult (r : Rule) (url : String) : Option RedirectInfo :=
  if r.is_regex then
    match compile r.url_pattern with
    | none => none
    | some (re, n) =>
      (reMatch re n url).map (fun gs =>
        { url := applyGroups r.redirect_url gs, status_code := r.status_code })
  else
    match compile (wildcardPattern r.url_pattern) with
    | none => none
    | some (re, n) =>
      (reMatch re n url).map (fun _ =>
        { url := r.redirect_url, status_code := r.status_code })

/-- The rule's pattern compiles (for the branch the rule actually takes). -/
def ruleCompiles (r : Rule) : Bool :=
  if r.is_regex then (compile r.url_pattern).isSome
  else (compile (wildcardPattern r.url_pattern)).isSome

/-- The scan the specification describes: take the active rules ordered by
priority descending then creation time descending, and return the first
rule's result that matches, stopping there. -/
def specResolve (rules : List Rule) (url : String) : Option RedirectInfo :=
  (orderedActive rules).findSome? (fun r => ruleMatchResult r url)

/-- Simultaneous placeholder substitution as the specification words it:
every placeholder `$i` (single digit `i` with `1 ≤ i ≤` capture count) is
replaced by the text of the `i`-th capture group, empty when the group did
not participate; other text is left untouched. -/
def simultSubstAux (gs : List (Option String)) : List Char → List Char
  | [] => []
  | '$' :: c :: rest =>
    if c.isDigit ∧ 1 ≤ c.toNat - '0'.toNat ∧ c.toNat - '0'.toNat ≤ gs.length then
      ((gs.getD (c.toNat - '0'.toNat - 1) none).getD "").toList ++
        simultSubstAux gs rest
    else
      '$' :: simultSubstAux gs (c :: rest)
  | c :: rest => c :: simultSubstAux gs rest

/-- String version of `simultSubstAux`. -/
def simultSubst (target : String) (gs : List (Option String)) : String :=
  ⟨simultSubstAux gs target.toList⟩

/-- `re.match(p, s).groups()` as one function: `none` when the pattern is
invalid or does not match. -/
def matchGroups (p s : String) : Option (List (Option String)) :=
  match compile p with
  | none => none
  | some (re, n) => reMatch re n s

/-! ## Concrete rules used in the theorems -/

/-- The wildcard rule of the specification's substitution example. -/
def blogRule : Rule :=
  { url_pattern := "/blog/*/*/post", redirect_url := "/articles/$1/$2/post",
    is_regex := false, status_code := 301, is_active := true,
    priority := 80, created_at := 0 }

/-- The regex rule of the specification's substitution example. -/
def productRule : Rule :=
  { url_pattern := "/product/(\\d+)", redirect_url := "/items/$1",
    is_regex := true, status_code := 301, is_active := true,
    priority := 90, created_at := 0 }

/-- A literal (no-wildcard) rule. -/
def aboutRule : Rule :=
  { url_pattern := "/about", redirect_url := "/about-new",
    is_regex := false, status_code := 301, is_active := true,
    priority := 0, created_at := 0 }

/-- An active regex rule whose pattern `"("` does not compile. -/
def badRegexRule : Rule :=
  { url_pattern := "(", redirect_url := "/t",
    is_regex := true, status_code := 301, is_active := true,
    priority := 500, created_at := 0 }

/-- A lower-priority literal rule matching `/x`. -/
def fallbackRule : Rule :=
  { url_pattern := "/x", redirect_url := "https://example.com/y",
    is_regex := false, status_code := 301, is_active := true,
    priority := 0, created_at := 0 }

/-- A regex rule with no capture group whose target references `$1`. -/
def unrefRule : Rule :=
  { url_pattern := "/x", redirect_url := "$1",
    is_regex := true, status_code := 301, is_active := true,
    priority := 0, created_at := 0 }

/-- Priority-100 literal rule on `/page`. -/
def pageV1Rule : Rule :=
  { url_pattern := "/page", redirect_url := "/page-v1",
    is_regex := false, status_code := 301, is_active := true,
    priority := 100, created_at := 0 }

/-- Priority-200 literal rule on `/page`, created later. -/
def pageV2Rule : Rule :=
  { url_pattern := "/page", redirect_url := "/page-v2",
    is_regex := false, status_code := 301, is_active := true,
    priority := 200, created_at := 1 }

/-- Two-group regex rule whose target references only `$1`. -/
def seqSubstRule : Rule :=
  { url_pattern := "(.*)/(.*)", redirect_url := "$1",
    is_regex := true, status_code := 301, is_active := true,
    priority := 0, created_at := 0 }

/-- Regex rule with an optional group that can fail to participate. -/
def optGroupRule : Rule :=
  { url_pattern := "/p(q)?(r)", redirect_url := "/t$1$2",
    is_regex := true, status_code := 301, is_active := true,
    priority := 0, created_at := 0 }

/-- Regex rule whose target contains `$0` next to a real placeholder. -/
def dollarZeroGroupRule : Rule :=
  { url_pattern := "/(a)", redirect_url := "$0$1",
    is_regex := true, status_code := 301, is_active := true,
    priority := 0, created_at := 0 }

/-- A family of zero-group regex rules on `/x` with arbitrary target. -/
def unrefTargetRule (t : String) : Rule :=
  { url_pattern := "/x", redirect_url := t,
    is_regex := true, status_code := 301, is_active := true,
    priority := 0, created_at := 0 }

/-- One-group regex rule whose target also references `$2`. -/
def partialRefRule : Rule :=
  { url_pattern := "/(a)", redirect_url := "$1$2",
    is_regex := true, status_code := 301, is_active := true,
    priority := 0, created_at := 0 }

/-- An inactive rule that would match `/about` at very high priority. -/
def inactiveRule : Rule :=
  { url_pattern := "/about", redirect_url := "/inactive-target",
    is_regex := false, status_code := 301, is_active := false,
    priority := 1000, created_at := 5 }

/-- The rule `create_redirect` persists for target `"$0"`. -/
def dollarZeroRule : Rule := mkRule "/x" "$0" 301 false 0 0

/-! ## Helper lemmas -/

/-- Membership is preserved by `insertRule`. -/
theorem mem_insertRule {a r : Rule} {l : List Rule} :
    a ∈ insertRule r l ↔ a = r ∨ a ∈ l := by
  induction l with
  | nil => simp [insertRule]
  | cons x xs ih =>
    simp only [insertRule]
    split
    · simp [List.mem_cons]
    · simp [List.mem_cons, ih]
      tauto

/-- Membership is preserved by `sortRules`. -/
theorem mem_sortRules {a : Rule} {l : List Rule} :
    a ∈ sortRules l ↔ a ∈ l := by
  induction l with
  | nil => simp [sortRules]
  | cons r rest ih => simp [sortRules, mem_insertRule, ih]

/-- When every rule in the scanned list compiles, the scan loop returns the
first matching rule's result without raising. -/
theorem findFrom_eq_findSome? (l : List Rule) (url : String)
    (h : ∀ r ∈ l, ruleCompiles r = true) :
    findFrom l url = .ok (l.findSome? fun r => ruleMatchResult r url) := by
  induction l with
  | nil => rfl
  | cons r rest ih =>
    have hr := h r (List.mem_cons_self r rest)
    have hrest : ∀ x ∈ rest, ruleCompiles x = true :=
      fun x hx => h x (List.mem_cons_of_mem r hx)
    by_cases hrx : r.is_regex
    · rw [ruleCompiles, if_pos hrx, Option.isSome_iff_exists] at hr
      obtain ⟨⟨re, n⟩, hcomp⟩ := hr
      cases hm : reMatch re n url with
      | some gs =>
        simp [findFrom, ruleMatchResult, hrx, hcomp, hm, List.findSome?_cons]
      | none =>
        simp [findFrom, ruleMatchResult, hrx, hcomp, hm, List.findSome?_cons,
          ih hrest]
    · rw [ruleCompiles, if_neg hrx, Option.isSome_iff_exists] at hr
      obtain ⟨⟨re, n⟩, hcomp⟩ := hr
      cases hm : reMatch re n url with
      | some gs =>
        simp [findFrom, ruleMatchResult, hrx, hcomp, hm, List.findSome?_cons]
      | none =>
        simp [findFrom, ruleMatchResult, hrx, hcomp, hm, List.findSome?_cons,
          ih hrest]

/-! ## Claim theorems -/

/-- C1: the claim states that `*` segments are captured and substituted
into the `$1`, `$2`, … placeholders of the target, so that the rule
`/blog/*/*/post → /articles/$1/$2/post` resolves `/blog/2023/12/post` to
`/articles/2023/12/post`.  The code's wildcard branch turns each `*` into
a non-capturing `.*` and returns the target verbatim: the resolver returns
`/articles/$1/$2/post`, not the substituted URL the claim (and the repo's
own `test_find_redirect_wildcard_match`) expects. -/
theorem c1_wildcard_substitution_missing :
    find_redirect [blogRule] "/blog/2023/12/post" =
      .ok (some { url := "/articles/$1/$2/post", status_code := 301 }) ∧
    simultSubst "/articles/$1/$2/post" [some "2023", some "12"] =
      "/articles/2023/12/post" ∧
    ("/articles/$1/$2/post" : String) ≠ "/articles/2023/12/post" :=
  ⟨rfl, rfl, by decide⟩

/-- C2 counterexample: the claim states that every rule is matched against
the entire path, so the regex rule `/product/(\d+)` should not match
`/product/123/extra`.  The regex branch uses `re.match`, which is anchored
at the start only: the rule does match, and the resolver returns
`/items/123` instead of no redirect. -/
theorem c2_regex_prefix_match_counterexample :
    find_redirect [productRule] "/product/123/extra" =
      .ok (some { url := "/items/123", status_code := 301 }) ∧
    find_redirect [productRule] "/product/123/extra" ≠ .ok none := by
  refine ⟨rfl, fun h => ?_⟩
  rw [show find_redirect [productRule] "/product/123/extra" =
        .ok (some { url := "/items/123", status_code := 301 }) from rfl] at h
  exact Option.noConfusion (Except.ok.inj h)

/-- C2 amended: wildcard/literal rules are matched against the entire path
(anchored at both ends), but regex rules use `re.match` semantics and are
anchored at the start only, so a regex matching a proper prefix of the
path counts as a match: `/product/(\d+)` matches `/product/123/extra` and
yields `/items/123`, while the literal rule `/about` matches `/about` and
neither `/about/us` nor `/x/about`; no rule matches at a non-zero offset. -/
theorem c2_anchoring_amended :
    find_redirect [productRule] "/product/123/extra" =
      .ok (some { url := "/items/123", status_code := 301 }) ∧
    find_redirect [aboutRule] "/about" =
      .ok (some { url := "/about-new", status_code := 301 }) ∧
    find_redirect [aboutRule] "/about/us" = .ok none ∧
    find_redirect [aboutRule] "/x/about" = .ok none ∧
    find_redirect [productRule] "/x/product/123" = .ok none :=
  ⟨rfl, rfl, rfl, rfl, rfl⟩

/-- C3 counterexample: the claim states that an active regex rule whose
pattern fails to compile is skipped and the scan continues with the
remaining rules.  `find_redirect` has no exception handler: with the
non-compiling rule `"("` at priority 500 ahead of a matching fallback
rule, resolution raises `re.error` instead of returning the fallback's
redirect (which the second conjunct shows would otherwise be found). -/
theorem c3_invalid_regex_raises :
    find_redirect [badRegexRule, fallbackRule] "/x" = .error reError ∧
    find_redirect [fallbackRule] "/x" =
      .ok (some { url := "https://example.com/y", status_code := 301 }) :=
  ⟨rfl, rfl⟩

/-- C3 amended: when the priority-ordered scan reaches an active regex
rule whose source pattern does not compile, the `re.error` raised by
`re.match` propagates to the caller; the rule is not skipped and no
later rule is examined. -/
theorem c3_error_propagates (r : Rule) (rest : List Rule) (url : String)
    (h₁ : r.is_regex = true) (h₂ : compile r.url_pattern = none) :
    findFrom (r :: rest) url = .error reError := by
  simp [findFrom, h₁, h₂]

/-- C3 amended, witnessed at the concrete non-compiling rule `"("`. -/
theorem c3_error_propagates_witness :
    findFrom [badRegexRule, fallbackRule] "/anything" = .error reError :=
  c3_error_propagates badRegexRule [fallbackRule] "/anything" rfl rfl

/-- C4 counterexample: the claim states that a placeholder `$i` whose
index exceeds the pattern's capture count is substituted with the empty
string.  For the zero-group regex rule `/x → $1`, the substitution loop
iterates over no groups at all and the resolver returns the target
`"$1"` verbatim, not `""`. -/
theorem c4_unreferenced_placeholder_literal :
    find_redirect [unrefRule] "/x" =
      .ok (some { url := "$1", status_code := 301 }) ∧
    ("$1" : String) ≠ "" :=
  ⟨rfl, by decide⟩

/-- C4 amended: placeholders whose index exceeds the capture count are
preserved as literal text: a zero-group regex rule returns any target
unchanged, and the one-group rule `/(a) → $1$2` resolves `/a` to `a$2`,
substituting `$1` but leaving `$2` intact. -/
theorem c4_literal_preservation_amended :
    (∀ t : String, find_redirect [unrefTargetRule t] "/x" =
      .ok (some { url := t, status_code := 301 })) ∧
    find_redirect [partialRefRule] "/a" =
      .ok (some { url := "a$2", status_code := 301 }) :=
  ⟨fun _ => rfl, rfl⟩

/-- C5: for every rule set whose active rules all carry compilable
patterns, `find_redirect` returns exactly the result of scanning the
active rules ordered by priority descending, ties by creation time
descending, and taking the first rule that matches the path, stopping
there (`specResolve`). -/
theorem c5_priority_first_match (rules : List Rule) (url : String)
    (h : ∀ r ∈ rules, r.is_active = true → ruleCompiles r = true) :
    find_redirect rules url = .ok (specResolve rules url) := by
  rw [find_redirect, specResolve]
  apply findFrom_eq_findSome?
  intro r hr
  simp only [orderedActive] at hr
  rw [mem_sortRules, List.mem_filter] at hr
  exact h r hr.1 hr.2

/-- C5, witnessed on two literal rules for `/page` with priorities 100 and
200: the priority-200 rule's target is returned. -/
theorem c5_priority_first_match_witness :
    find_redirect [pageV1Rule, pageV2Rule] "/page" =
      .ok (some { url := "/page-v2", status_code := 301 }) :=
  (c5_priority_first_match [pageV1Rule, pageV2Rule] "/page" (by decide)).trans
    (by rfl)

/-- C6: inactive rules are excluded from resolution entirely: the result
over any store equals the result over its active rules alone, and
prepending an inactive rule — whatever its priority or pattern — never
changes the result. -/
theorem c6_inactive_excluded (rules : List Rule) (url : String) (r : Rule)
    (h : r.is_active = false) :
    find_redirect rules url =
      find_redirect (rules.filter fun x => x.is_active) url ∧
    find_redirect (r :: rules) url = find_redirect rules url := by
  constructor
  · simp [find_redirect, orderedActive, List.filter_filter]
  · simp [find_redirect, orderedActive, List.filter_cons, h]

/-- C6, witnessed with an inactive priority-1000 rule matching `/about`:
its presence does not affect resolution. -/
theorem c6_inactive_excluded_witness :
    find_redirect [inactiveRule, aboutRule] "/about" =
      find_redirect [aboutRule] "/about" :=
  (c6_inactive_excluded [aboutRule] "/about" inactiveRule rfl).2

/-- C7: `create_redirect` runs `full_clean` before `save`: if the rule is
flagged `is_regex` with a non-compiling pattern, or its target mentions
none of `$0`…`$9` and fails URL validation, a `ValidationError` is raised
and the store is unchanged; conversely a rule passing field validation
and both checks is appended to the store and returned. -/
theorem c7_creation_validation (store : List Rule) (p t : String) (sc : Nat)
    (rx : Bool) (pr : Int) (now : Int) :
    ((rx = true ∧ compile p = none) ∨
        (hasDollarRef t = false ∧ urlValidator t = false) →
      (create_redirect store p t sc rx pr now).1 = store ∧
      ∃ e, (create_redirect store p t sc rx pr now).2 = .error e) ∧
    (clean_fields (mkRule p t sc rx pr now) = none →
      (rx = true → (compile p).isSome = true) →
      (hasDollarRef t = true ∨ urlValidator t = true) →
      create_redirect store p t sc rx pr now =
        (store ++ [mkRule p t sc rx pr now], .ok (mkRule p t sc rx pr now))) := by
  constructor
  · intro h
    have hclean : ∃ e, full_clean (mkRule p t sc rx pr now) = some e := by
      rw [full_clean]
      cases hcf : clean_fields (mkRule p t sc rx pr now) with
      | some e => exact ⟨e, rfl⟩
      | none =>
        rw [clean]
        rcases h with ⟨hrx, hcomp⟩ | ⟨hd, hu⟩
        · rw [if_pos]
          · exact ⟨_, rfl⟩
          · exact ⟨by simp [mkRule, hrx], by simp [mkRule, hcomp]⟩
        · by_cases hc : (mkRule p t sc rx pr now).is_regex = true ∧
              (compile (mkRule p t sc rx pr now).url_pattern).isNone = true
          · rw [if_pos hc]
            exact ⟨_, rfl⟩
          · rw [if_neg hc, if_pos]
            · exact ⟨_, rfl⟩
            · simp [mkRule, hd, hu]
    obtain ⟨e, he⟩ := hclean
    simp [create_redirect, he]
  · intro hcf hcomp hok
    have hnone : full_clean (mkRule p t sc rx pr now) = none := by
      rw [full_clean, hcf, clean, if_neg, if_neg]
      · rintro ⟨hd, hu⟩
        simp [mkRule] at hd hu
        rcases hok with h | h
        · rw [h] at hd
          exact Bool.noConfusion hd
        · rw [h] at hu
          exact Bool.noConfusion hu
      · rintro ⟨h1, h2⟩
        simp only [mkRule] at h1 h2
        have := hcomp h1
        rw [Option.isNone_iff_eq_none] at h2
        rw [h2] at this
        exact Bool.noConfusion this
    simp [create_redirect, hnone]

/-- C7, witnessed: creating with the non-compiling regex `"("` or the
malformed target `"not a url"` leaves the store empty; creating the valid
literal rule `/a → https://example.com` persists it. -/
theorem c7_creation_validation_witness :
    (create_redirect [] "(" "/t$1" 301 true 0 0).1 = [] ∧
    (create_redirect [] "/a" "not a url" 301 false 0 0).1 = [] ∧
    create_redirect [] "/a" "https://example.com" 301 false 0 0 =
      ([mkRule "/a" "https://example.com" 301 false 0 0],
        .ok (mkRule "/a" "https://example.com" 301 false 0 0)) :=
  ⟨((c7_creation_validation [] "(" "/t$1" 301 true 0 0).1
      (Or.inl ⟨rfl, rfl⟩)).1,
   ((c7_creation_validation [] "/a" "not a url" 301 false 0 0).1
      (Or.inr ⟨rfl, rfl⟩)).1,
   (c7_creation_validation [] "/a" "https://example.com" 301 false 0 0).2
      rfl (fun h => Bool.noConfusion h) (Or.inr rfl)⟩

/-- C8 counterexample: the claim states that on a regex match each
placeholder `$i` (for `i` up to the capture count) is replaced by the
text of the `i`-th capture group — i.e. simultaneous substitution.  The
code substitutes sequentially with `str.replace`, so captured text that
itself contains a placeholder token is rewritten by a later step: rule
`(.*)/(.*) → $1` on path `$2/z` captures groups `$2` and `z`; the claim's
substitution yields `$2`, the code returns `z`. -/
theorem c8_simultaneous_substitution_counterexample :
    find_redirect [seqSubstRule] "$2/z" =
      .ok (some { url := "z", status_code := 301 }) ∧
    matchGroups "(.*)/(.*)" "$2/z" = some [some "$2", some "z"] ∧
    simultSubst "$1" [some "$2", some "z"] = "$2" ∧
    ("z" : String) ≠ "$2" :=
  ⟨rfl, rfl, rfl, by decide⟩

/-- C8 amended: `/product/(\d+) → /items/$1` resolves `/product/123` to
`/items/123` and `/product/abc` to none; a group that did not participate
substitutes as the empty string (`/p(q)?(r) → /t$1$2` resolves `/pr` to
`/tr`); substitution is sequential textual replacement in increasing
index order, so group text containing a later placeholder token is itself
rewritten (`applyGroups "$1" [$2, z] = z`). -/
theorem c8_regex_substitution_amended :
    find_redirect [productRule] "/product/123" =
      .ok (some { url := "/items/123", status_code := 301 }) ∧
    find_redirect [productRule] "/product/abc" = .ok none ∧
    find_redirect [optGroupRule] "/pr" =
      .ok (some { url := "/tr", status_code := 301 }) ∧
    applyGroups "$1" [some "$2", some "z"] = "z" :=
  ⟨rfl, rfl, rfl, rfl⟩

/-- C9: resolution is deterministic — two invocations of `find_redirect`
on the same path against equal (unchanged) rule stores return identical
results. -/
theorem c9_deterministic (rules₁ rules₂ : List Rule) (url : String)
    (h : rules₁ = rules₂) :
    find_redirect rules₁ url = find_redirect rules₂ url := by
  rw [h]

/-- C9, witnessed at a concrete store and path. -/
theorem c9_deterministic_witness :
    find_redirect [productRule] "/product/123" =
      find_redirect [productRule] "/product/123" :=
  c9_deterministic [productRule] [productRule] "/product/123" rfl

/-- C10: `clean` skips URL validation whenever the target contains any of
`$0`…`$9` (a consequence of `range(10)` starting at 0), even though the
substitution loop starts at index 1 and never substitutes `$0`: the target
`"$0"` is not a valid URL yet is accepted at creation, persisted, and
returned verbatim on a match; with a real group, `$0$1` resolves to
`$0a` — `$0` survives untouched. -/
theorem c10_dollar_zero :
    hasDollarRef "$0" = true ∧
    urlValidator "$0" = false ∧
    (∀ (p t : String) (sc : Nat) (pr now : Int), hasDollarRef t = true →
      clean (mkRule p t sc false pr now) = none) ∧
    create_redirect [] "/x" "$0" 301 false 0 0 =
      ([dollarZeroRule], .ok dollarZeroRule) ∧
    find_redirect [dollarZeroRule] "/x" =
      .ok (some { url := "$0", status_code := 301 }) ∧
    find_redirect [dollarZeroGroupRule] "/a" =
      .ok (some { url := "$0a", status_code := 301 }) := by
  refine ⟨rfl, rfl, ?_, rfl, rfl, rfl⟩
  intro p t sc pr now h
  simp [clean, mkRule, h]

/-- C10, witnessed: any target containing a `$i` token skips URL
validation, here `"$3"`. -/
theorem c10_dollar_zero_witness :
    clean (mkRule "/y" "$3" 302 false 5 7) = none :=
  c10_dollar_zero.2.2.1 "/y" "$3" 302 5 7 (by decide)

end SeoRedirects
